import Mathlib

/-! spiled: LED flasher for 74HC595 shift registers over SPI

A shallow embedding of `src/spiled.c` (`parse_options`, `timer_handler`,
`reset_statistics` and the end-of-run report of `main`) together with theorems
about the per-tick output frame, the jitter statistics and the order of the
device calls.

Conventions of the embedding

* C `int` fields are `Int`; the `unsigned counter` is a `Nat` and its increment
  is taken modulo `2^32`; `uint8_t` / `uint16_t` stores are taken modulo `2^8` /
  `2^16`.
* `double` / `long double` values are exact rationals (`ℚ`).
* Everything the handler obtains from outside during one call (the clock
  sample, the return values of the device calls and the indeterminate initial
  content of the local array `buf`) is collected in `tick_env`.
* The calls the handler makes to the outside (`spi_write`, `sgpio_set`,
  `printf`) are returned as an ordered list of `Event`s.
* `stimer_limit_delta` lives in `stimer.h`, which is not part of the sources;
  it is a parameter `limit_delta : ℚ → ℚ` of the handler.
-/

namespace Spiled

/-! ## Data model -/

/-- Command line options, `options_t` (lines 32-43). -/
structure options_t where
  /-- time interval [ms] -/
  interval : Int
  /-- verbose level {0,1,2,3} -/
  verbose : Int
  /-- output delay statistic to stdout {0|1} -/
  stat : Int
  /-- number of 74HC595 registers (1 or 2) -/
  num : Int
  /-- SPI device name -/
  device : List Char
  /-- SPI max speed [Hz] -/
  speed : Int
  /-- GPIO channel connected to RCK (>=0 or -1 to not use) -/
  rck : Int
  /-- alternate mode number (>=0) -/
  alt : Int
  /-- negative output {0|1} -/
  negative : Int
  /-- real time mode {0|1} -/
  realtime : Int
deriving DecidableEq

/-- Application data, `self_t` (lines 46-57); the `gpio`, `spi` and `timer`
handles belong to the external libraries and carry no state of the handler. -/
structure self_t where
  options : options_t
  state : Int
  counter : Nat
  daytime : ℚ
  dt_min : ℚ
  dt_max : ℚ
  dt_sum : ℚ
deriving DecidableEq

/-- What one call of `timer_handler` receives from outside. -/
structure tick_env where
  /-- value returned by `stimer_daytime()` (line 214) -/
  daytime : ℚ
  /-- indeterminate initial content of `buf[0]` (line 217) -/
  buf0 : Nat
  /-- indeterminate initial content of `buf[1]` (line 217) -/
  buf1 : Nat
  /-- value returned by `spi_write` (lines 282, 284) -/
  spi_ret : Int
  /-- value returned by `sgpio_set(gpio, 1)` (line 292) -/
  set1_ret : Int
deriving DecidableEq

/-- Calls made by `timer_handler` to the outside, in program order. -/
inductive Event where
  /-- `spi_write(spi, p, n)`: the `n` bytes starting at `p` -/
  | spi_write (data : List Nat)
  /-- `sgpio_set(gpio, val)` -/
  | sgpio_set (val : Int)
  /-- `printf(">>> spi_write(%d) return %d\n", num, i)` (line 287) -/
  | printf_spi (num i : Int)
  /-- `printf(">>> sgpio_set() return %d\n", i)` (line 297) -/
  | printf_gpio (i : Int)
  /-- the statistics line (lines 303-305), values already multiplied by 1e3 -/
  | printf_stat (counter : Nat) (daytime dt_min dt_max dt : ℚ)
deriving DecidableEq

/-- Device calls (SPI and GPIO), as opposed to console output. -/
def Event.is_device : Event → Bool
  | .spi_write _ => true
  | .sgpio_set _ => true
  | _ => false

/-! ## `reset_statistics` (lines 315-323) -/

/-- Body of `reset_statistics`. -/
def reset_statistics (self : self_t) : self_t :=
  { self with state := 0, counter := 0, daytime := 0, dt_min := 0, dt_max := 0, dt_sum := 0 }

/-! ## `timer_handler` (lines 206-312) -/

/-- Lines 215-223: the measured delta `dt` of this tick (0 while `state <= 0`). -/
def tick_dt (limit_delta : ℚ → ℚ) (self : self_t) (daytime : ℚ) : ℚ :=
  if self.state > 0 then limit_delta (daytime - self.daytime) else 0

/-- Lines 219-242: update of `dt_sum`, `daytime`, `dt_min`, `dt_max`, `state`. -/
def update_statistics (limit_delta : ℚ → ℚ) (self : self_t) (daytime : ℚ) : self_t :=
  let dt := tick_dt limit_delta self daytime
  let self1 : self_t :=
    if self.state > 0 then { self with dt_sum := self.dt_sum + dt } else self
  let self2 : self_t := { self1 with daytime := daytime }
  if self2.state = 0 then
    { self2 with dt_min := 0, dt_max := 0, state := self2.state + 1 }
  else if self2.state = 1 then
    { self2 with dt_min := dt, dt_max := dt, state := self2.state + 1 }
  else
    let self3 : self_t := if self2.dt_max < dt then { self2 with dt_max := dt } else self2
    if self3.dt_min > dt then { self3 with dt_min := dt } else self3

/-- Lines 255-258: the byte of mode #1 with one register (a `uint8_t` store). -/
def walking_bit8 (counter : Nat) : Nat :=
  if counter &&& 0x8 ≠ 0 then (0x01 <<< (counter &&& 0x7)) % 256
  else (0x80 >>> (counter &&& 0x7)) % 256

/-- Lines 262-266: `reg` of mode #1 with two registers (a `uint16_t` store). -/
def walking_bit16 (counter : Nat) : Nat :=
  if counter &&& 0x10 ≠ 0 then (0x0001 <<< (counter &&& 0xF)) % 65536
  else (0x8000 >>> (counter &&& 0xF)) % 65536

/-- Lines 244-271: fill `buf`; the argument `buf` is the content the array has
before (it is left untouched when `alt` is neither 0 nor 1). -/
def fill_buf (o : options_t) (counter : Nat) (buf : Nat × Nat) : Nat × Nat :=
  if o.alt = 0 then
    (((counter >>> 8) &&& 0xFF) % 256, (counter &&& 0xFF) % 256)
  else if o.alt = 1 then
    if o.num = 1 then
      (0, walking_bit8 counter)
    else
      let reg : Nat := walking_bit16 counter
      (((reg >>> 8) &&& 0xFF) % 256, (reg &&& 0xFF) % 256)
  else buf

/-- Lines 273-278: invert data in negative mode. -/
def invert_buf (o : options_t) (buf : Nat × Nat) : Nat × Nat :=
  if o.negative ≠ 0 then ((buf.1 ^^^ 0xFF) % 256, (buf.2 ^^^ 0xFF) % 256) else buf

/-- Content of `buf` when `spi_write` is reached (lines 217, 244-278). -/
def output_buf (o : options_t) (counter : Nat) (env : tick_env) : Nat × Nat :=
  invert_buf o (fill_buf o counter (env.buf0 % 256, env.buf1 % 256))

/-- Lines 280-284: the bytes handed to `spi_write`. -/
def frame (o : options_t) (counter : Nat) (env : tick_env) : List Nat :=
  let buf := output_buf o counter env
  if o.num = 1 then [buf.2] else [buf.1, buf.2]

/-- Lines 280-306: the outside calls of one tick, in program order; `self` is
the state after `update_statistics`, `dt` the delta of this tick. -/
def tick_events (self : self_t) (dt : ℚ) (env : tick_env) : List Event :=
  let o := self.options
  [Event.spi_write (frame o self.counter env)]
  ++ (if o.verbose ≥ 3 then [Event.printf_spi o.num env.spi_ret] else [])
  ++ (if o.rck ≥ 0 then
        [Event.sgpio_set 1]
        ++ (if env.set1_ret ≥ 0 then [Event.sgpio_set 0] else [])
        ++ (if o.verbose ≥ 3 then [Event.printf_gpio env.set1_ret] else [])
      else [])
  ++ (if self.state > 1 ∧ o.stat ≠ 0 then
        [Event.printf_stat self.counter (env.daytime * 1000) (self.dt_min * 1000)
          (self.dt_max * 1000) (dt * 1000)]
      else [])

/-- The periodic timer handler: returned value, new application data and the
outside calls made. -/
def timer_handler (limit_delta : ℚ → ℚ) (self : self_t) (env : tick_env) :
    Int × self_t × List Event :=
  let dt := tick_dt limit_delta self env.daytime
  let self1 := update_statistics limit_delta self env.daytime
  let events := tick_events self1 dt env
  (0, { self1 with counter := (self1.counter + 1) % 2 ^ 32 }, events)

/-- Device calls of one tick (console output dropped). -/
def device_trace (limit_delta : ℚ → ℚ) (self : self_t) (env : tick_env) : List Event :=
  (timer_handler limit_delta self env).2.2.filter Event.is_device

/-- The data of every `spi_write` in a list of events. -/
def spi_writes : List Event → List (List Nat)
  | [] => []
  | Event.spi_write d :: es => d :: spi_writes es
  | _ :: es => spi_writes es

/-- The frames written to the SPI device by one call of the handler. -/
def written (limit_delta : ℚ → ℚ) (self : self_t) (env : tick_env) : List (List Nat) :=
  spi_writes (timer_handler limit_delta self env).2.2

/-- Successive calls of the handler, one per element of `envs`. -/
def run (limit_delta : ℚ → ℚ) (self : self_t) (envs : List tick_env) : self_t :=
  envs.foldl (fun s e => (timer_handler limit_delta s e).2.1) self

/-- The deltas measured along a sequence of clock samples that follows the
sample `prev`: each sample against the one before it, through `limit_delta`
(line 221). -/
def deltas (limit_delta : ℚ → ℚ) : ℚ → List ℚ → List ℚ
  | _, [] => []
  | prev, d :: ds => limit_delta (d - prev) :: deltas limit_delta d ds

/-! ## `parse_options` (lines 93-195) -/

/-- `EXIT_SUCCESS`, the status `help()` exits with. -/
def EXIT_SUCCESS : Int := 0

/-- `EXIT_FAILURE`, the status `usage()` exits with. -/
def EXIT_FAILURE : Int := 1

/-- Decimal digits of the C library function `atoi`, accumulated left to right. -/
def atoi_digits : List Char → Int → Int
  | [], acc => acc
  | c :: cs, acc =>
    if c.isDigit then atoi_digits cs (acc * 10 + ((c.toNat : Int) - 48)) else acc

/-- The C library function `atoi` on values within the range of `int`: leading
white space, an optional sign, then decimal digits up to the first other
character. -/
def atoi (s : String) : Int :=
  match s.toList.dropWhile Char.isWhitespace with
  | '-' :: ds => - atoi_digits ds 0
  | '+' :: ds => atoi_digits ds 0
  | ds => atoi_digits ds 0

/-- The loop of `parse_options` (lines 110-194) over the arguments that remain;
`Except.error status` stands for `exit(status)` in `help()` / `usage()`. -/
def parse_loop (atoi : String → Int) : List String → options_t → Except Int options_t
  | [], o => .ok o
  | a :: rest, o =>
    if a.toList.head? = some '-' then
      if a = "-h" ∨ a = "--help" then .error EXIT_SUCCESS
      else if a = "-v" ∨ a = "--verbose" then
        parse_loop atoi rest { o with verbose := o.verbose + 1, stat := 0 }
      else if a = "-vv" ∨ a = "--more-verbose" then
        parse_loop atoi rest { o with verbose := 2, stat := 0 }
      else if a = "-vvv" ∨ a = "--much-verbose" then
        parse_loop atoi rest { o with verbose := 3, stat := 0 }
      else if a = "-S" ∨ a = "--stat" then
        parse_loop atoi rest { o with verbose := 0, stat := 1 }
      else if a = "-m" ∨ a = "--reg-num" then
        match rest with
        | [] => .error EXIT_FAILURE
        | v :: rest' =>
          let n := atoi v
          let n := if n < 1 then 1 else n
          let n := if n > 2 then 2 else n
          parse_loop atoi rest' { o with num := n }
      else if a = "-d" ∨ a = "--spi-dev" then
        match rest with
        | [] => .error EXIT_FAILURE
        | v :: rest' => parse_loop atoi rest' { o with device := v.toList }
      else if a = "-s" ∨ a = "--spi-speed" then
        match rest with
        | [] => .error EXIT_FAILURE
        | v :: rest' =>
          let n := atoi v
          parse_loop atoi rest' { o with speed := if n < 0 then 0 else n }
      else if a = "-g" ∨ a = "--rck-gpio" then
        match rest with
        | [] => .error EXIT_FAILURE
        | v :: rest' => parse_loop atoi rest' { o with rck := atoi v }
      else if a = "-a" ∨ a = "--alt-num" then
        match rest with
        | [] => .error EXIT_FAILURE
        | v :: rest' => parse_loop atoi rest' { o with alt := atoi v }
      else if a = "-n" ∨ a = "--negative" then
        parse_loop atoi rest { o with negative := 1 }
      else if a = "-r" ∨ a = "--real-time" then
        parse_loop atoi rest { o with realtime := 1 }
      else .error EXIT_FAILURE
    else
      let n := atoi a
      parse_loop atoi rest { o with interval := if n ≤ 0 then 1 else n }

/-- Options as `parse_options` sets them before the loop (lines 98-107, with the
`#define`s of lines 17-29). -/
def default_options : options_t :=
  { interval := 100, verbose := 0, stat := 0, num := 1,
    device := "/dev/spidev1.0".toList, speed := 2400000, rck := 18,
    alt := 0, negative := 0, realtime := 0 }

/-- The function `parse_options`: `argv` includes the program name `argv[0]`,
which the loop skips (`i` starts at 1). -/
def parse_options (atoi : String → Int) (argv : List String) : Except Int options_t :=
  parse_loop atoi argv.tail default_options

/-! ## End-of-run report of `main` (lines 489-497) -/

/-- Line 491: the operands `(dt_sum, (long double) counter - 1)` of every division
`main` evaluates for the report; the statement is not under any condition. -/
def report_divisions (self : self_t) : List (ℚ × ℚ) :=
  [(self.dt_sum, (self.counter : ℚ) - 1)]

/-- Line 491: `dt_mid`; `none` stands for the value of a division by zero, which
is not a number of `ℚ`. -/
def dt_mid (self : self_t) : Option ℚ :=
  if (self.counter : ℚ) - 1 = 0 then none else some (self.dt_sum / ((self.counter : ℚ) - 1))

/-- Lines 325-340, 453, 489-497 of `main`, with every set-up call succeeding:
options are parsed, statistics are reset, the timer loop calls the handler once
per element of `envs` (the ticks that happen before Ctrl-C), and the report is
computed from the application data left by the last tick.  The result is the
final application data, the divisions evaluated and `dt_mid`. -/
def main (limit_delta : ℚ → ℚ) (atoi : String → Int) (argv : List String)
    (envs : List tick_env) : Except Int (self_t × List (ℚ × ℚ) × Option ℚ) :=
  match parse_options atoi argv with
  | .error status => .error status
  | .ok o =>
    let self : self_t := reset_statistics
      { options := o, state := 0, counter := 0, daytime := 0, dt_min := 0, dt_max := 0,
        dt_sum := 0 }
    let self := run limit_delta self envs
    .ok (self, report_divisions self, dt_mid self)

/-- State reached after four ticks with clock samples 1, 3, 4, 7 (deltas 2, 1, 3)
under the default options. -/
def after_four_ticks : self_t :=
  { options := default_options, state := 2, counter := 4, daytime := 7, dt_min := 1,
    dt_max := 3, dt_sum := 6 }

/-- Application data with the given options and tick counter, statistics zeroed. -/
def self_at (o : options_t) (counter : Nat) : self_t :=
  { options := o, state := 0, counter := counter, daytime := 0, dt_min := 0, dt_max := 0,
    dt_sum := 0 }

/-- A sample environment of one tick: clock at `daytime`, both device calls
succeed, `buf` initially holds `0xAA, 0x55`. -/
def env_at (daytime : ℚ) : tick_env :=
  { daytime := daytime, buf0 := 0xAA, buf1 := 0x55, spi_ret := 1, set1_ret := 0 }

/-! ## Auxiliary facts -/

theorem update_statistics_options (l : ℚ → ℚ) (s : self_t) (d : ℚ) :
    (update_statistics l s d).options = s.options := by
  unfold update_statistics
  simp only
  split_ifs <;> rfl

theorem update_statistics_counter (l : ℚ → ℚ) (s : self_t) (d : ℚ) :
    (update_statistics l s d).counter = s.counter := by
  unfold update_statistics
  simp only
  split_ifs <;> rfl

theorem spi_writes_tick_events (s : self_t) (dt : ℚ) (env : tick_env) :
    spi_writes (tick_events s dt env) = [frame s.options s.counter env] := by
  unfold tick_events
  simp only
  split_ifs <;> simp [spi_writes]

theorem written_eq_frame (l : ℚ → ℚ) (s : self_t) (env : tick_env) :
    written l s env = [frame s.options s.counter env] := by
  unfold written timer_handler
  simp only [spi_writes_tick_events, update_statistics_options, update_statistics_counter]

theorem and_255 (t : Nat) : t &&& 255 = t % 256 := Nat.and_pow_two_sub_one_eq_mod t 8

theorem and_15 (t : Nat) : t &&& 15 = t % 16 := Nat.and_pow_two_sub_one_eq_mod t 4

theorem and_31 (t : Nat) : t &&& 31 = t % 32 := Nat.and_pow_two_sub_one_eq_mod t 5

theorem mod_and_of_and (m a b : Nat) (h : m &&& b = b) (t : Nat) (hm : t &&& m = a) :
    a &&& b = t &&& b := by
  rw [← hm, Nat.and_assoc, h]

theorem xor_mask_mod (t n : Nat) : (t ^^^ (2 ^ n - 1)) % 2 ^ n = (t % 2 ^ n) ^^^ (2 ^ n - 1) := by
  apply Nat.eq_of_testBit_eq
  intro i
  simp only [Nat.testBit_mod_two_pow, Nat.testBit_xor, Nat.testBit_two_pow_sub_one]
  by_cases h : i < n <;> simp [h]

theorem walking_bit8_mod (t : Nat) : walking_bit8 (t % 16) = walking_bit8 t := by
  have h8 : (t % 16) &&& 8 = t &&& 8 := mod_and_of_and 15 _ 8 (by decide) t (and_15 t)
  have h7 : (t % 16) &&& 7 = t &&& 7 := mod_and_of_and 15 _ 7 (by decide) t (and_15 t)
  unfold walking_bit8
  rw [h8, h7]

theorem walking_bit16_mod (t : Nat) : walking_bit16 (t % 32) = walking_bit16 t := by
  have h16 : (t % 32) &&& 16 = t &&& 16 := mod_and_of_and 31 _ 16 (by decide) t (and_31 t)
  have h15 : (t % 32) &&& 15 = t &&& 15 := mod_and_of_and 31 _ 15 (by decide) t (and_31 t)
  unfold walking_bit16
  rw [h16, h15]

theorem walking_bit8_xor (t : Nat) : walking_bit8 (t ^^^ 15) = walking_bit8 t := by
  have hx : (t ^^^ 15) % 16 = (t % 16) ^^^ 15 := xor_mask_mod t 4
  rw [← walking_bit8_mod (t ^^^ 15), ← walking_bit8_mod t, hx]
  have key : ∀ r, r < 16 → walking_bit8 (r ^^^ 15) = walking_bit8 r := by decide
  exact key _ (Nat.mod_lt _ (by decide))

theorem walking_bit16_xor (t : Nat) : walking_bit16 (t ^^^ 31) = walking_bit16 t := by
  have hx : (t ^^^ 31) % 32 = (t % 32) ^^^ 31 := xor_mask_mod t 5
  rw [← walking_bit16_mod (t ^^^ 31), ← walking_bit16_mod t, hx]
  have key : ∀ r, r < 32 → walking_bit16 (r ^^^ 31) = walking_bit16 r := by decide
  exact key _ (Nat.mod_lt _ (by decide))

theorem byte_and_mod (x : Nat) : (x &&& 255) % 256 = x &&& 255 := by
  rw [and_255, Nat.mod_mod]

theorem byte_xor_mod (x : Nat) : ((x % 256) ^^^ 255) % 256 = (x % 256) ^^^ 255 :=
  Nat.mod_eq_of_lt (Nat.xor_lt_two_pow (n := 8) (Nat.mod_lt _ (by decide)) (by decide))

theorem frame_counter (o : options_t) (t : Nat) (env : tick_env)
    (halt : o.alt = 0) (hneg : o.negative = 0) :
    frame o t env = if o.num = 1 then [t &&& 255] else [(t >>> 8) &&& 255, t &&& 255] := by
  simp [frame, output_buf, invert_buf, fill_buf, halt, hneg, byte_and_mod]

theorem frame_walking8 (o : options_t) (t : Nat) (env : tick_env)
    (halt : o.alt = 1) (hnum : o.num = 1) (hneg : o.negative = 0) :
    frame o t env = [walking_bit8 t] := by
  simp [frame, output_buf, invert_buf, fill_buf, halt, hneg, hnum]

theorem frame_walking16 (o : options_t) (t : Nat) (env : tick_env)
    (halt : o.alt = 1) (hnum : o.num ≠ 1) (hneg : o.negative = 0) :
    frame o t env = [walking_bit16 t / 256, walking_bit16 t % 256] := by
  have hlt : walking_bit16 t < 65536 := by
    unfold walking_bit16
    split_ifs <;> exact Nat.mod_lt _ (by decide)
  have h1 : (walking_bit16 t >>> 8 &&& 255) % 256 = walking_bit16 t / 256 := by
    rw [byte_and_mod, and_255, Nat.shiftRight_eq_div_pow]
    omega
  have h2 : (walking_bit16 t &&& 255) % 256 = walking_bit16 t % 256 := by
    rw [byte_and_mod, and_255]
  simp [frame, output_buf, invert_buf, fill_buf, halt, hneg, hnum, h1, h2]

theorem frame_negative (o1 o0 : options_t) (t : Nat) (e1 e0 : tick_env)
    (ha : o1.alt = o0.alt) (hn : o1.num = o0.num)
    (halt : o0.alt = 0 ∨ o0.alt = 1) (h1 : o1.negative = 1) (h0 : o0.negative = 0) :
    frame o1 t e1 = (frame o0 t e0).map (fun b => b ^^^ 0xFF) := by
  have hw8 : (walking_bit8 t ^^^ 255) % 256 = walking_bit8 t ^^^ 255 := by
    have h : walking_bit8 t = walking_bit8 t % 256 := by
      unfold walking_bit8
      split_ifs <;> rw [Nat.mod_mod]
    rw [h]
    exact byte_xor_mod _
  by_cases hnum : o0.num = 1
  · rcases halt with h | h
    · simp [frame, output_buf, invert_buf, fill_buf, ha, hn, h, h1, h0, hnum, byte_xor_mod]
    · simp [frame, output_buf, invert_buf, fill_buf, ha, hn, h, h1, h0, hnum, hw8]
  · rcases halt with h | h
    · simp [frame, output_buf, invert_buf, fill_buf, ha, hn, h, h1, h0, hnum, byte_xor_mod]
    · simp [frame, output_buf, invert_buf, fill_buf, ha, hn, h, h1, h0, hnum, byte_xor_mod]

/-! ## The output frame -/

/-- C1: in Counter mode (`alt = 0`) with normal polarity the handler writes, for
every tick counter `t`, exactly the two bytes `[(t >> 8) & 0xFF, t & 0xFF]` when
`num = 2` (they are the low 16 bits of `t`, big-endian) and exactly the one byte
`t & 0xFF` when `num = 1`. -/
theorem counter_mode_frame (l : ℚ → ℚ) (s : self_t) (env : tick_env)
    (halt : s.options.alt = 0) (hneg : s.options.negative = 0) :
    (s.options.num = 2 →
      written l s env = [[(s.counter >>> 8) &&& 0xFF, s.counter &&& 0xFF]] ∧
      ((s.counter >>> 8) &&& 0xFF) * 256 + (s.counter &&& 0xFF) = s.counter % 2 ^ 16) ∧
    (s.options.num = 1 → written l s env = [[s.counter &&& 0xFF]]) := by
  rw [written_eq_frame, frame_counter _ _ _ halt hneg]
  refine ⟨fun h => ⟨by simp [h], ?_⟩, fun h => by simp [h]⟩
  have h1 := and_255 (s.counter >>> 8)
  have h2 := and_255 s.counter
  have h3 := Nat.shiftRight_eq_div_pow s.counter 8
  norm_num at h1 h2 h3 ⊢
  rw [h1, h2, h3]
  omega

/-- C1, the worked value: `t = 0x1234` with two registers gives `[0x12, 0x34]`. -/
theorem counter_mode_frame_witness :
    written (fun d => d) (self_at { default_options with num := 2 } 0x1234) (env_at 0)
      = [[0x12, 0x34]] :=
  ((counter_mode_frame (fun d => d) (self_at { default_options with num := 2 } 0x1234)
    (env_at 0) rfl rfl).1 rfl).1

/-- C2: for a defined mode (`alt` 0 or 1) and a width `num` of 1 or 2, the frame
written with `negative = 1` has the same number of bytes as the frame written
with `negative = 0` for the same counter, mode and width, and each of its bytes is
the other one XOR `0xFF`. -/
theorem negative_is_complement (l1 l0 : ℚ → ℚ) (s1 s0 : self_t) (e1 e0 : tick_env)
    (hc : s1.counter = s0.counter) (ha : s1.options.alt = s0.options.alt)
    (hn : s1.options.num = s0.options.num)
    (halt : s0.options.alt = 0 ∨ s0.options.alt = 1)
    (hnum : s0.options.num = 1 ∨ s0.options.num = 2)
    (h1 : s1.options.negative = 1) (h0 : s0.options.negative = 0) :
    ∃ f1 f0 : List Nat, written l1 s1 e1 = [f1] ∧ written l0 s0 e0 = [f0] ∧
      f1.length = f0.length ∧ f0.length = s0.options.num ∧
      f1 = f0.map (fun b => b ^^^ 0xFF) := by
  refine ⟨frame s1.options s1.counter e1, frame s0.options s0.counter e0,
    written_eq_frame _ _ _, written_eq_frame _ _ _, ?_, ?_, ?_⟩
  · rw [hc, frame_negative _ _ _ e1 e0 ha hn halt h1 h0, List.length_map]
  · rcases hnum with h | h <;> simp [frame, h]
  · rw [hc]
    exact frame_negative _ _ _ e1 e0 ha hn halt h1 h0

/-- C2 at a concrete input: walking bit, two registers, tick 3. -/
theorem negative_is_complement_witness :
    ∃ f1 f0 : List Nat,
      written (fun d => d)
        (self_at { default_options with alt := 1, num := 2, negative := 1 } 3) (env_at 0) = [f1] ∧
      written (fun d => d)
        (self_at { default_options with alt := 1, num := 2 } 3) (env_at 0) = [f0] ∧
      f1.length = f0.length ∧ f0.length = (2 : Int) ∧ f1 = f0.map (fun b => b ^^^ 0xFF) :=
  negative_is_complement (fun d => d) (fun d => d)
    (self_at { default_options with alt := 1, num := 2, negative := 1 } 3)
    (self_at { default_options with alt := 1, num := 2 } 3) (env_at 0) (env_at 0)
    rfl rfl rfl (Or.inr rfl) (Or.inr rfl) rfl rfl

/-- C3: in WalkingBit mode (`alt = 1`) with one register and normal polarity the
handler writes one byte with exactly one bit set; the byte is the same at ticks
`t` and `t XOR 15`, depends only on `t mod 16`, and is `0x80, 0x01, 0x01, 0x80`
at `t = 0, 7, 8, 15`. -/
theorem walking_bit_single_mirror (l l' : ℚ → ℚ) (s s' : self_t) (env env' : tick_env)
    (h : s.options.alt = 1 ∧ s.options.num = 1 ∧ s.options.negative = 0)
    (h' : s'.options.alt = 1 ∧ s'.options.num = 1 ∧ s'.options.negative = 0) :
    (∃ k, k < 8 ∧ written l s env = [[2 ^ k]]) ∧
    (s'.counter = s.counter ^^^ 15 → written l' s' env' = written l s env) ∧
    (s'.counter % 16 = s.counter % 16 → written l' s' env' = written l s env) ∧
    (s.counter = 0 → written l s env = [[0x80]]) ∧
    (s.counter = 7 → written l s env = [[0x01]]) ∧
    (s.counter = 8 → written l s env = [[0x01]]) ∧
    (s.counter = 15 → written l s env = [[0x80]]) := by
  rw [written_eq_frame, written_eq_frame, frame_walking8 _ _ _ h.1 h.2.1 h.2.2,
    frame_walking8 _ _ _ h'.1 h'.2.1 h'.2.2]
  refine ⟨?_, ?_, ?_, ?_, ?_, ?_, ?_⟩
  · have key : ∀ r, r < 16 → ∃ k, k < 8 ∧ walking_bit8 r = 2 ^ k := by decide
    obtain ⟨k, hk, e⟩ := key (s.counter % 16) (Nat.mod_lt _ (by decide))
    exact ⟨k, hk, by rw [← walking_bit8_mod, e]⟩
  · intro e
    rw [e, walking_bit8_xor]
  · intro e
    rw [← walking_bit8_mod s'.counter, e, walking_bit8_mod]
  · intro e
    rw [e]
    decide
  · intro e
    rw [e]
    decide
  · intro e
    rw [e]
    decide
  · intro e
    rw [e]
    decide

/-- C3 at concrete inputs: tick 7 writes `0x01`, and tick 8 = 7 XOR 15 writes the
same byte. -/
theorem walking_bit_single_mirror_witness :
    written (fun d => d) (self_at { default_options with alt := 1 } 7) (env_at 0) = [[0x01]] ∧
    written (fun d => d) (self_at { default_options with alt := 1 } 8) (env_at 1)
      = written (fun d => d) (self_at { default_options with alt := 1 } 7) (env_at 0) :=
  have w := walking_bit_single_mirror (fun d => d) (fun d => d)
    (self_at { default_options with alt := 1 } 7) (self_at { default_options with alt := 1 } 8)
    (env_at 0) (env_at 1) ⟨rfl, rfl, rfl⟩ ⟨rfl, rfl, rfl⟩
  ⟨w.2.2.2.2.1 rfl, w.2.1 (by decide)⟩

/-- C4 as stated fails: at tick 0 (bit 3 clear) the byte written is `0x80`, not
`1 << (0 & 7) = 0x01`. -/
theorem walking_bit_direction_counterexample :
    (self_at { default_options with alt := 1 } 0).counter &&& 0x8 = 0 ∧
    written (fun d => d) (self_at { default_options with alt := 1 } 0) (env_at 0)
      ≠ [[1 <<< ((self_at { default_options with alt := 1 } 0).counter &&& 0x7)]] := by
  decide

/-- C4, amended: in WalkingBit mode (`alt = 1`) with one register and normal
polarity, at every tick `t` whose bit 3 is clear the byte written is
`0x80 >> (t & 7)` (the set bit walks from MSB to LSB), and at every tick whose
bit 3 is set it is `1 << (t & 7)` (the set bit walks from LSB to MSB). -/
theorem walking_bit_direction (l : ℚ → ℚ) (s : self_t) (env : tick_env)
    (halt : s.options.alt = 1) (hnum : s.options.num = 1) (hneg : s.options.negative = 0) :
    (s.counter &&& 0x8 = 0 → written l s env = [[0x80 >>> (s.counter &&& 0x7)]]) ∧
    (s.counter &&& 0x8 ≠ 0 → written l s env = [[1 <<< (s.counter &&& 0x7)]]) := by
  rw [written_eq_frame, frame_walking8 _ _ _ halt hnum hneg]
  have h7 : s.counter &&& 7 < 8 := by
    have := Nat.and_pow_two_sub_one_eq_mod s.counter 3
    norm_num at this
    rw [this]
    exact Nat.mod_lt _ (by decide)
  have key : ∀ k, k < 8 → (0x80 >>> k) % 256 = 0x80 >>> k ∧ (1 <<< k) % 256 = 1 <<< k := by
    decide
  constructor
  · intro hb
    simp only [walking_bit8, hb, ne_eq, not_true_eq_false, if_false]
    rw [(key _ h7).1]
  · intro hb
    simp only [walking_bit8, hb, ne_eq, not_false_eq_true, if_true]
    rw [(key _ h7).2]

/-- C4, amended, at concrete inputs: tick 2 writes `0x20`, tick 10 writes `0x04`. -/
theorem walking_bit_direction_witness :
    written (fun d => d) (self_at { default_options with alt := 1 } 2) (env_at 0) = [[0x20]] ∧
    written (fun d => d) (self_at { default_options with alt := 1 } 10) (env_at 0) = [[0x04]] :=
  ⟨(walking_bit_direction (fun d => d) (self_at { default_options with alt := 1 } 2)
      (env_at 0) rfl rfl rfl).1 (by decide),
   (walking_bit_direction (fun d => d) (self_at { default_options with alt := 1 } 10)
      (env_at 0) rfl rfl rfl).2 (by decide)⟩

/-- C5: in WalkingBit mode (`alt = 1`) with two registers and normal polarity the
handler writes two bytes `b0, b1` whose big-endian word `b0 * 256 + b1` has
exactly one bit set; the frame depends only on the low 5 bits of the tick, is the
same at ticks `t` and `t XOR 31`, and at a tick whose bit 4 is clear the set bit
is bit `15 - t mod 16`, so that the 16 ticks `32 q + j`, `j < 16`, visit each of
the 16 bit positions exactly once. -/
theorem walking_bit_double_sweep (l l' : ℚ → ℚ) (s s' : self_t) (env env' : tick_env)
    (h : s.options.alt = 1 ∧ s.options.num = 2 ∧ s.options.negative = 0)
    (h' : s'.options.alt = 1 ∧ s'.options.num = 2 ∧ s'.options.negative = 0) :
    (∃ b0 b1 k, written l s env = [[b0, b1]] ∧ b0 < 256 ∧ b1 < 256 ∧ k < 16 ∧
      b0 * 256 + b1 = 2 ^ k) ∧
    (s'.counter % 32 = s.counter % 32 → written l' s' env' = written l s env) ∧
    (s'.counter = s.counter ^^^ 31 → written l' s' env' = written l s env) ∧
    (s.counter &&& 0x10 = 0 → ∃ b0 b1, written l s env = [[b0, b1]] ∧
      b0 * 256 + b1 = 2 ^ (15 - s.counter % 16)) ∧
    (∀ q k, k < 16 → ∃! j, j < 16 ∧
      written l { s with counter := 32 * q + j } env = [[2 ^ k / 256, 2 ^ k % 256]]) := by
  have hn : s.options.num ≠ 1 := by rw [h.2.1]; decide
  have hn' : s'.options.num ≠ 1 := by rw [h'.2.1]; decide
  have one : ∀ r, r < 32 → ∃ k, k < 16 ∧ walking_bit16 r = 2 ^ k := by decide
  have up : ∀ r, r < 32 → r &&& 16 = 0 → walking_bit16 r = 2 ^ (15 - r % 16) := by decide
  have lo : ∀ j, j < 16 → j &&& 16 = 0 := by decide
  have up16 : ∀ q j, j < 16 → walking_bit16 (32 * q + j) = 2 ^ (15 - j) := by
    intro q j hj
    have e : (32 * q + j) % 32 = j := by omega
    rw [← walking_bit16_mod, e]
    have := up j (by omega) (lo j hj)
    rwa [Nat.mod_eq_of_lt hj] at this
  have split : ∀ w : Nat, w / 256 * 256 + w % 256 = w := fun w => by omega
  refine ⟨?_, ?_, ?_, ?_, ?_⟩
  · obtain ⟨k, hk, e⟩ := one (s.counter % 32) (Nat.mod_lt _ (by decide))
    rw [walking_bit16_mod] at e
    have hlt : (2 : Nat) ^ k < 2 ^ 16 := Nat.pow_lt_pow_right (by decide) hk
    refine ⟨walking_bit16 s.counter / 256, walking_bit16 s.counter % 256, k, ?_, ?_, ?_, hk, ?_⟩
    · rw [written_eq_frame, frame_walking16 _ _ _ h.1 hn h.2.2]
    · rw [e]
      omega
    · exact Nat.mod_lt _ (by decide)
    · rw [split, e]
  · intro e
    rw [written_eq_frame, written_eq_frame, frame_walking16 _ _ _ h.1 hn h.2.2,
      frame_walking16 _ _ _ h'.1 hn' h'.2.2, ← walking_bit16_mod s'.counter, e,
      walking_bit16_mod]
  · intro e
    rw [written_eq_frame, written_eq_frame, frame_walking16 _ _ _ h.1 hn h.2.2,
      frame_walking16 _ _ _ h'.1 hn' h'.2.2, e, walking_bit16_xor]
  · intro hb
    refine ⟨walking_bit16 s.counter / 256, walking_bit16 s.counter % 256, ?_, ?_⟩
    · rw [written_eq_frame, frame_walking16 _ _ _ h.1 hn h.2.2]
    · have h16 : (s.counter % 32) &&& 16 = s.counter &&& 16 :=
        mod_and_of_and 31 _ 16 (by decide) _ (and_31 _)
      have := up (s.counter % 32) (Nat.mod_lt _ (by decide)) (by rw [h16]; exact hb)
      rw [walking_bit16_mod, Nat.mod_mod_of_dvd _ (by decide : 16 ∣ 32)] at this
      rw [split, this]
  · intro q k hk
    have fr : ∀ j, written l { s with counter := 32 * q + j } env
        = [[walking_bit16 (32 * q + j) / 256, walking_bit16 (32 * q + j) % 256]] := by
      intro j
      rw [written_eq_frame]
      exact congrArg (fun f => [f]) (frame_walking16 s.options (32 * q + j) env h.1 hn h.2.2)
    refine ⟨15 - k, ⟨by omega, ?_⟩, ?_⟩
    · rw [fr, up16 q (15 - k) (by omega)]
      have : 15 - (15 - k) = k := by omega
      rw [this]
    · rintro j ⟨hj, e⟩
      rw [fr, up16 q j hj] at e
      have e0 : (2 : Nat) ^ (15 - j) / 256 = 2 ^ k / 256 := by
        have := congrArg (fun x : List (List Nat) => (x.headD []).headD 0) e
        simpa using this
      have e1 : (2 : Nat) ^ (15 - j) % 256 = 2 ^ k % 256 := by
        have := congrArg (fun x : List (List Nat) => ((x.headD []).tail).headD 0) e
        simpa using this
      have e2 : (2 : Nat) ^ (15 - j) = 2 ^ k := by
        rw [← split (2 ^ (15 - j)), ← split (2 ^ k), e0, e1]
      have := Nat.pow_right_injective (le_refl 2) e2
      omega

/-- C5 at concrete inputs: tick 5 writes the word `2 ^ 10`, and tick 26 = 5 XOR 31
writes the same frame. -/
theorem walking_bit_double_sweep_witness :
    (∃ b0 b1, written (fun d => d) (self_at { default_options with alt := 1, num := 2 } 5)
        (env_at 0) = [[b0, b1]] ∧ b0 * 256 + b1 = 2 ^ (15 - 5 % 16)) ∧
    written (fun d => d) (self_at { default_options with alt := 1, num := 2 } 26) (env_at 1)
      = written (fun d => d) (self_at { default_options with alt := 1, num := 2 } 5) (env_at 0) :=
  have w := walking_bit_double_sweep (fun d => d) (fun d => d)
    (self_at { default_options with alt := 1, num := 2 } 5)
    (self_at { default_options with alt := 1, num := 2 } 26)
    (env_at 0) (env_at 1) ⟨rfl, rfl, rfl⟩ ⟨rfl, rfl, rfl⟩
  ⟨w.2.2.2.1 (by decide), w.2.2.1 (by decide)⟩

/-! ## Jitter statistics -/

theorem foldl_min_le (ds : List ℚ) : ∀ a : ℚ,
    ds.foldl min a ≤ a ∧ ∀ d ∈ ds, ds.foldl min a ≤ d := by
  induction ds with
  | nil => intro a; simp
  | cons x xs ih =>
    intro a
    obtain ⟨h1, h2⟩ := ih (min a x)
    refine ⟨le_trans h1 (min_le_left _ _), ?_⟩
    intro d hd
    rcases List.mem_cons.1 hd with rfl | hd
    · exact le_trans h1 (min_le_right _ _)
    · exact h2 d hd

theorem foldl_min_mem (ds : List ℚ) : ∀ a : ℚ, ds.foldl min a ∈ a :: ds := by
  induction ds with
  | nil => intro a; simp
  | cons x xs ih =>
    intro a
    have h := ih (min a x)
    rcases List.mem_cons.1 h with h | h
    · rcases min_choice a x with e | e
      · rw [List.foldl_cons, h, e]; simp
      · rw [List.foldl_cons, h, e]; simp
    · rw [List.foldl_cons]
      exact List.mem_cons_of_mem _ (List.mem_cons_of_mem _ h)

theorem le_foldl_max (ds : List ℚ) : ∀ a : ℚ,
    a ≤ ds.foldl max a ∧ ∀ d ∈ ds, d ≤ ds.foldl max a := by
  induction ds with
  | nil => intro a; simp
  | cons x xs ih =>
    intro a
    obtain ⟨h1, h2⟩ := ih (max a x)
    refine ⟨le_trans (le_max_left _ _) h1, ?_⟩
    intro d hd
    rcases List.mem_cons.1 hd with rfl | hd
    · exact le_trans (le_max_right _ _) h1
    · exact h2 d hd

theorem foldl_max_mem (ds : List ℚ) : ∀ a : ℚ, ds.foldl max a ∈ a :: ds := by
  induction ds with
  | nil => intro a; simp
  | cons x xs ih =>
    intro a
    have h := ih (max a x)
    rcases List.mem_cons.1 h with h | h
    · rcases max_choice a x with e | e
      · rw [List.foldl_cons, h, e]; simp
      · rw [List.foldl_cons, h, e]; simp
    · rw [List.foldl_cons]
      exact List.mem_cons_of_mem _ (List.mem_cons_of_mem _ h)

/-- One tick in the steady state (`state = 2`). -/
theorem steady_tick (l : ℚ → ℚ) (s : self_t) (e : tick_env) (hs : s.state = 2) :
    let r := (timer_handler l s e).2.1
    r.state = 2 ∧ r.daytime = e.daytime ∧
    r.dt_sum = s.dt_sum + l (e.daytime - s.daytime) ∧
    r.dt_min = min s.dt_min (l (e.daytime - s.daytime)) ∧
    r.dt_max = max s.dt_max (l (e.daytime - s.daytime)) := by
  simp only [timer_handler, update_statistics, tick_dt, hs]
  norm_num
  refine ⟨?_, ?_, ?_, ?_, ?_⟩
  · split_ifs <;> rfl
  · split_ifs <;> rfl
  · split_ifs <;> rfl
  · split_ifs with h1 h2 h2
    · exact (min_eq_right (le_of_lt h2)).symm
    · exact (min_eq_left (not_lt.1 h2)).symm
    · exact (min_eq_right (le_of_lt h2)).symm
    · exact (min_eq_left (not_lt.1 h2)).symm
  · split_ifs with h1 h2 h2
    · exact (max_eq_right (le_of_lt h1)).symm
    · exact (max_eq_right (le_of_lt h1)).symm
    · exact (max_eq_left (not_lt.1 h1)).symm
    · exact (max_eq_left (not_lt.1 h1)).symm

/-- Any number of ticks in the steady state. -/
theorem steady_run (l : ℚ → ℚ) (envs : List tick_env) : ∀ s : self_t, s.state = 2 →
    (run l s envs).dt_sum = s.dt_sum + (deltas l s.daytime (envs.map tick_env.daytime)).sum ∧
    (run l s envs).dt_min
      = (deltas l s.daytime (envs.map tick_env.daytime)).foldl min s.dt_min ∧
    (run l s envs).dt_max
      = (deltas l s.daytime (envs.map tick_env.daytime)).foldl max s.dt_max := by
  induction envs with
  | nil => intro s _; simp [run, deltas]
  | cons e es ih =>
    intro s hs
    obtain ⟨h1, h2, h3, h4, h5⟩ := steady_tick l s e hs
    obtain ⟨i1, i2, i3⟩ := ih _ h1
    have hr : run l s (e :: es) = run l (timer_handler l s e).2.1 es := rfl
    rw [hr, i1, i2, i3, h2, h3, h4, h5]
    simp [deltas, add_assoc]

/-- The first two ticks after `reset_statistics`. -/
theorem first_two_ticks (l : ℚ → ℚ) (s0 : self_t) (e1 e2 : tick_env) :
    let r := run l (reset_statistics s0) [e1, e2]
    r.state = 2 ∧ r.daytime = e2.daytime ∧ r.dt_sum = l (e2.daytime - e1.daytime) ∧
    r.dt_min = l (e2.daytime - e1.daytime) ∧ r.dt_max = l (e2.daytime - e1.daytime) := by
  simp [run, timer_handler, update_statistics, tick_dt, reset_statistics]

/-- C7: starting from `reset_statistics`, after exactly one tick `dt_min`, `dt_max`
and `dt_sum` are 0; after the `N >= 2` ticks with samples `e1, e2, rest`, where `ds`
is the list of the `N - 1` measured deltas `limit_delta (s_i - s_(i-1))`, `dt_min`
is the minimum of `ds` (a member of `ds` below every member), `dt_max` its maximum,
`dt_sum` its sum, and with `N = 2` both `dt_min` and `dt_max` are the single delta. -/
theorem jitter_statistics (l : ℚ → ℚ) (s0 : self_t) (e1 e2 : tick_env) (rest : List tick_env)
    (sN : self_t) (ds : List ℚ)
    (hN : sN = run l (reset_statistics s0) (e1 :: e2 :: rest))
    (hds : ds = deltas l e1.daytime ((e2 :: rest).map tick_env.daytime)) :
    ((run l (reset_statistics s0) [e1]).dt_min = 0 ∧
      (run l (reset_statistics s0) [e1]).dt_max = 0 ∧
      (run l (reset_statistics s0) [e1]).dt_sum = 0) ∧
    ds.length = rest.length + 1 ∧
    (sN.dt_min ∈ ds ∧ ∀ d ∈ ds, sN.dt_min ≤ d) ∧
    (sN.dt_max ∈ ds ∧ ∀ d ∈ ds, d ≤ sN.dt_max) ∧
    sN.dt_sum = ds.sum ∧
    (rest = [] → sN.dt_min = l (e2.daytime - e1.daytime) ∧
      sN.dt_max = l (e2.daytime - e1.daytime)) := by
  obtain ⟨t1, t2, t3, t4, t5⟩ := first_two_ticks l s0 e1 e2
  have hr : run l (reset_statistics s0) (e1 :: e2 :: rest)
      = run l (run l (reset_statistics s0) [e1, e2]) rest := rfl
  obtain ⟨r1, r2, r3⟩ := steady_run l rest _ t1
  rw [t2, t3] at r1
  rw [t2, t4] at r2
  rw [t2, t5] at r3
  rw [← hr, ← hN] at r1 r2 r3
  have hcons : ds = l (e2.daytime - e1.daytime)
      :: deltas l e2.daytime (rest.map tick_env.daytime) := by
    rw [hds]
    rfl
  have hlen : ∀ (p : ℚ) (es : List tick_env),
      (deltas l p (es.map tick_env.daytime)).length = es.length := by
    intro p es
    induction es generalizing p with
    | nil => rfl
    | cons x xs ih => simp [deltas, ih]
  refine ⟨by simp [run, timer_handler, update_statistics, tick_dt, reset_statistics],
    ?_, ⟨?_, ?_⟩, ⟨?_, ?_⟩, ?_, ?_⟩
  · rw [hcons, List.length_cons, hlen]
  · rw [r2, hcons]
    exact foldl_min_mem _ _
  · intro d hd
    rw [r2]
    rw [hcons] at hd
    rcases List.mem_cons.1 hd with rfl | hd
    · exact (foldl_min_le _ _).1
    · exact (foldl_min_le _ _).2 d hd
  · rw [r3, hcons]
    exact foldl_max_mem _ _
  · intro d hd
    rw [r3]
    rw [hcons] at hd
    rcases List.mem_cons.1 hd with rfl | hd
    · exact (le_foldl_max _ _).1
    · exact (le_foldl_max _ _).2 d hd
  · rw [r1, hcons, List.sum_cons]
  · intro he
    subst he
    simp [deltas] at r2 r3
    exact ⟨r2, r3⟩

/-- C7 at a concrete run: clock samples 1, 3, 4, 7 give the deltas 2, 1, 3, hence
`dt_min = 1`, `dt_max = 3`, `dt_sum = 6`. -/
theorem jitter_statistics_witness :
    after_four_ticks = run (fun d => d) (reset_statistics (self_at default_options 9))
      [env_at 1, env_at 3, env_at 4, env_at 7] ∧
    ([2, 1, 3] : List ℚ)
      = deltas (fun d => d) (env_at 1).daytime ([env_at 3, env_at 4, env_at 7].map tick_env.daytime) ∧
    (after_four_ticks.dt_min ∈ ([2, 1, 3] : List ℚ) ∧
      ∀ d ∈ ([2, 1, 3] : List ℚ), after_four_ticks.dt_min ≤ d) ∧
    (after_four_ticks.dt_max ∈ ([2, 1, 3] : List ℚ) ∧
      ∀ d ∈ ([2, 1, 3] : List ℚ), d ≤ after_four_ticks.dt_max) ∧
    after_four_ticks.dt_sum = ([2, 1, 3] : List ℚ).sum :=
  have h1 : after_four_ticks = run (fun d => d) (reset_statistics (self_at default_options 9))
      [env_at 1, env_at 3, env_at 4, env_at 7] := by
    norm_num [run, timer_handler, update_statistics, tick_dt, reset_statistics, self_at,
      env_at, after_four_ticks]
  have h2 : ([2, 1, 3] : List ℚ) = deltas (fun d => d) (env_at 1).daytime
      ([env_at 3, env_at 4, env_at 7].map tick_env.daytime) := by
    norm_num [deltas, env_at]
  have w := jitter_statistics (fun d => d) (self_at default_options 9) (env_at 1) (env_at 3)
    [env_at 4, env_at 7] after_four_ticks [2, 1, 3] h1 h2
  ⟨h1, h2, w.2.2.1, w.2.2.2.1, w.2.2.2.2.1⟩

/-! ## Device calls and tick state -/

theorem run_counter (l : ℚ → ℚ) (envs : List tick_env) : ∀ s : self_t,
    (run l s envs).counter = (s.counter + envs.length) % 2 ^ 32 ∨
    (envs = [] ∧ (run l s envs).counter = s.counter) := by
  induction envs with
  | nil => intro s; exact Or.inr ⟨rfl, rfl⟩
  | cons e es ih =>
    intro s
    left
    have hr : run l s (e :: es) = run l (timer_handler l s e).2.1 es := rfl
    have hc : (timer_handler l s e).2.1.counter = (s.counter + 1) % 2 ^ 32 := by
      simp [timer_handler, update_statistics_counter]
    rw [hr]
    rcases ih (timer_handler l s e).2.1 with h | ⟨h1, h2⟩
    · rw [h, hc, List.length_cons]
      omega
    · rw [h2, hc, h1]
      rfl

/-- C9: whatever `spi_write` and `sgpio_set` return (`r_spi`, `r_set`, negative
error codes included), the handler returns 0, the counter becomes
`(counter + 1) mod 2^32`, and the whole resulting application data (`state`,
`counter`, `daytime`, `dt_min`, `dt_max`, `dt_sum`) equals the one obtained with any
other pair of return values (`ok_spi`, `ok_set`), for instance successful ones;
after `reset_statistics` the counter is 0 and after `n` ticks it is `n mod 2^32`. -/
theorem io_failure_keeps_tick_state (l : ℚ → ℚ) (s : self_t) (env : tick_env)
    (r_spi r_set ok_spi ok_set : Int) (envs : List tick_env) :
    (timer_handler l s { env with spi_ret := r_spi, set1_ret := r_set }).1 = 0 ∧
    (timer_handler l s { env with spi_ret := r_spi, set1_ret := r_set }).2.1.counter
      = (s.counter + 1) % 2 ^ 32 ∧
    (timer_handler l s { env with spi_ret := r_spi, set1_ret := r_set }).2.1
      = (timer_handler l s { env with spi_ret := ok_spi, set1_ret := ok_set }).2.1 ∧
    (reset_statistics s).counter = 0 ∧
    (run l (reset_statistics s) envs).counter = envs.length % 2 ^ 32 := by
  refine ⟨rfl, ?_, rfl, rfl, ?_⟩
  · simp [timer_handler, update_statistics_counter]
  · rcases run_counter l envs (reset_statistics s) with h | ⟨h1, h2⟩
    · rw [h]
      simp [reset_statistics]
    · rw [h2, h1]
      rfl

theorem device_trace_eq (l : ℚ → ℚ) (s : self_t) (env : tick_env) :
    device_trace l s env =
      Event.spi_write (frame s.options s.counter env) ::
        (if s.options.rck ≥ 0 then
          Event.sgpio_set 1 :: (if env.set1_ret ≥ 0 then [Event.sgpio_set 0] else [])
        else []) := by
  simp only [device_trace, timer_handler, tick_events, update_statistics_options,
    update_statistics_counter]
  split_ifs <;> simp [Event.is_device]

/-- C10 as stated fails: with the strobe configured (`rck = 18`) and
`sgpio_set(gpio, 1)` returning `-1`, the device calls of the tick are the
`spi_write` and `sgpio_set(1)` only; `sgpio_set(0)` is not called. -/
theorem strobe_pulse_counterexample :
    default_options.rck ≥ 0 ∧
    device_trace (fun d => d) (self_at default_options 5) { env_at 0 with set1_ret := -1 }
      = [Event.spi_write [5], Event.sgpio_set 1] ∧
    device_trace (fun d => d) (self_at default_options 5) { env_at 0 with set1_ret := -1 }
      ≠ [Event.spi_write (frame default_options 5 { env_at 0 with set1_ret := -1 }),
          Event.sgpio_set 1, Event.sgpio_set 0] := by
  refine ⟨by decide, ?_, ?_⟩
  · rw [device_trace_eq]
    decide
  · rw [device_trace_eq]
    decide

/-- C10, amended: the device calls of a tick are, in this order, exactly one
`spi_write` of the frame, then (with `rck >= 0`) `sgpio_set(1)`, then `sgpio_set(0)`
when `sgpio_set(1)` returned a value `>= 0`; when `sgpio_set(1)` returned a negative
value the calls end after `sgpio_set(1)`. With `rck < 0` the `spi_write` is the only
device call. No `sgpio_set` precedes the `spi_write`. -/
theorem strobe_pulse_follows_write (l : ℚ → ℚ) (s : self_t) (env : tick_env) :
    (s.options.rck ≥ 0 → env.set1_ret ≥ 0 →
      device_trace l s env = [Event.spi_write (frame s.options s.counter env),
        Event.sgpio_set 1, Event.sgpio_set 0]) ∧
    (s.options.rck ≥ 0 → env.set1_ret < 0 →
      device_trace l s env = [Event.spi_write (frame s.options s.counter env),
        Event.sgpio_set 1]) ∧
    (s.options.rck < 0 →
      device_trace l s env = [Event.spi_write (frame s.options s.counter env)]) := by
  rw [device_trace_eq]
  refine ⟨fun h1 h2 => ?_, fun h1 h2 => ?_, fun h1 => ?_⟩
  · rw [if_pos h1, if_pos h2]
  · rw [if_pos h1, if_neg (not_le.2 h2)]
  · rw [if_neg (not_le.2 h1)]

/-- C10, amended, at concrete inputs: `rck = 18` with a successful and with a
failing `sgpio_set(1)`, and `rck = -1`. -/
theorem strobe_pulse_follows_write_witness :
    device_trace (fun d => d) (self_at default_options 5) (env_at 0)
      = [Event.spi_write [5], Event.sgpio_set 1, Event.sgpio_set 0] ∧
    device_trace (fun d => d) (self_at default_options 5) { env_at 0 with set1_ret := -1 }
      = [Event.spi_write [5], Event.sgpio_set 1] ∧
    device_trace (fun d => d) (self_at { default_options with rck := -1 } 5) (env_at 0)
      = [Event.spi_write [5]] :=
  ⟨(strobe_pulse_follows_write (fun d => d) (self_at default_options 5) (env_at 0)).1
      (by decide) (by decide),
   (strobe_pulse_follows_write (fun d => d) (self_at default_options 5)
      { env_at 0 with set1_ret := -1 }).2.1 (by decide) (by decide),
   (strobe_pulse_follows_write (fun d => d) (self_at { default_options with rck := -1 } 5)
      (env_at 0)).2.2 (by decide)⟩

/-! ## Undefined modes and the end-of-run mean -/

/-- With `alt` neither 0 nor 1 the frame is what `buf` held before the handler
filled anything in (complemented in negative mode). -/
theorem frame_undefined_mode (o : options_t) (t : Nat) (env : tick_env)
    (h0 : o.alt ≠ 0) (h1 : o.alt ≠ 1) :
    frame o t env =
      if o.num = 1 then [(invert_buf o (env.buf0 % 256, env.buf1 % 256)).2]
      else [(invert_buf o (env.buf0 % 256, env.buf1 % 256)).1,
            (invert_buf o (env.buf0 % 256, env.buf1 % 256)).2] := by
  simp [frame, output_buf, fill_buf, h0, h1]

/-- C6, the code at the failing input `spiled -a 2`: `parse_options` accepts the
mode number 2, and the handler still performs its `spi_write`; the byte written
is whatever `buf[1]` held on entry (`0x55` in one environment, `0x77` in
another), since no branch of lines 245-271 assigns it. -/
theorem undefined_mode_writes_indeterminate_frame :
    parse_options atoi ["spiled", "-a", "2"] = .ok { default_options with alt := 2 } ∧
    written (fun d => d) (self_at { default_options with alt := 2 } 0) (env_at 0)
      = [[0x55]] ∧
    written (fun d => d) (self_at { default_options with alt := 2 } 0)
      { env_at 0 with buf1 := 0x77 } = [[0x77]] ∧
    device_trace (fun d => d) (self_at { default_options with alt := 2 } 0) (env_at 0)
      = [Event.spi_write [0x55], Event.sgpio_set 1, Event.sgpio_set 0] := by
  refine ⟨rfl, by decide, by decide, ?_⟩
  rw [device_trace_eq]
  decide

/-- C8, the code at the failing inputs: a run that ends before the first tick
evaluates `dt_sum / (counter - 1)` with operands `0` and `-1`, and a run that ends
after exactly one tick evaluates it with operands `0` and `0`, a division by
zero; `main` has no guard on `counter`. -/
theorem report_divides_without_measured_delta :
    (main (fun d => d) atoi ["spiled"] []).toOption.map
        (fun r => (r.1.counter, r.2.1, r.2.2)) = some (0, [(0, -1)], some 0) ∧
    (main (fun d => d) atoi ["spiled"] [env_at 5]).toOption.map
        (fun r => (r.1.counter, r.2.1, r.2.2)) = some (1, [(0, 0)], none) := by
  have p : parse_options atoi ["spiled"] = .ok default_options := rfl
  constructor
  · simp [main, p, run, reset_statistics, report_divisions, dt_mid, Except.toOption]
  · simp [main, p, run, reset_statistics, report_divisions, dt_mid, Except.toOption,
      timer_handler, update_statistics, tick_dt]

end Spiled
